import Mathlib

/-!
Verification of the valuation pipeline of `src/main.py` (asset_plot).

The core under specification is `calculate_final_values`, together with its two
collaborators `fetch_current_price` (Price Resolver) and
`fetch_usd_krw_exchange_rate` (Exchange Rate Provider).

Modelling choices (shallow embedding):

* Prices are exact rationals.  A missing price (Python `None` / pandas `NaN`)
  is `Option.none`; NaN propagates through arithmetic via `Option.map`, and
  the pandas column sum skips NaN entries (they contribute `0`), matching the
  default `skipna=True` of `Series.sum`.
* The external world (yfinance history query, Binance spot endpoint,
  exchange-rate feed) is an explicit `Env` of response oracles, including the
  failure modes the source handles: empty history, non-200 status, parse
  failure, and a raised exception.  `Env.rowFail` additionally injects an
  unexpected per-row exception inside the `try` block of the valuation loop
  (at its start, or between the resolution and the conversion step), to state
  the per-asset isolation guarantee of the catch-block.
* The run is instrumented with an event trace (`Event`): one event per
  exchange-rate fetch and one per resolver invocation, so that the
  cache-respecting and once-per-run properties are statements about the trace.
* `round(x, 2)` of Python / `Series.round(2)` of pandas is modelled as
  `round2` on rationals; every claim compares the code with the spec formula
  through this same rounding function, so tie-breaking conventions cancel.
-/

namespace AssetPlot

/-- An asset row as stored in the `assets` table (`src/main.py`, `initialize_db`).
`current_price = none` models SQL `NULL` / pandas `NaN`. -/
structure Asset where
  id : Nat
  asset_type : String
  plot_type : String
  ticker_symbol : Option String
  quantity : ℚ
  current_price : Option ℚ
  currency : String
  leverage : ℚ
deriving DecidableEq

/-- A valuation-result row: the asset with its `final_value` column added by
`calculate_final_values`.  `final_value = none` models a NaN entry. -/
structure VAsset extends Asset where
  final_value : Option ℚ
deriving DecidableEq

/-- Outcome of the yfinance `stock.history(period="1d")` query. -/
inductive StockResp
  | hist (close : ℚ)
  | empty
  | exn
deriving DecidableEq

/-- Outcome of the Binance spot-price HTTP query for `{ticker}USDT`. -/
inductive CryptoResp
  | ok (price : ℚ)
  | non200
  | badParse
  | exn
deriving DecidableEq

/-- Outcome of the exchange-rate feed query. -/
inductive RateResp
  | ok (rate : ℚ)
  | non200
  | missingField
  | exn
deriving DecidableEq

/-- An injected unexpected exception inside the per-row `try` block of
`calculate_final_values`: none, at the start of the block (before the
resolution step), or between resolution and conversion. -/
inductive RowFail
  | noFail
  | atResolve
  | atConvert
deriving DecidableEq

/-- The external world a valuation run interacts with. -/
structure Env where
  stock : Option String → StockResp
  crypto : Option String → CryptoResp
  rate : RateResp
  rowFail : Nat → RowFail

/-- Observable external call of a run: one exchange-rate fetch, or one Price
Resolver invocation for the row at the given index. -/
inductive Event
  | rateFetch
  | resolve (i : Nat)
deriving DecidableEq

/-- What `fetch_current_price` hands back: the price (`none` = Python `None`,
the ABSENT signal), whether `logging.warning` fired, and whether
`logging.error` fired (an exception was caught). -/
structure FetchResult where
  price : Option ℚ
  warned : Bool
  errLogged : Bool
deriving DecidableEq

/-- Body of `fetch_current_price` (`src/main.py` lines 77-95), before the
surrounding `try/except`: `Except.error` is a raised exception. -/
def fetch_current_price_body (e : Env) (asset_type : String) (ticker : Option String) :
    Except String FetchResult :=
  if asset_type = "stock" then
    match e.stock ticker with
    | StockResp.hist c => Except.ok ⟨some c, false, false⟩
    | StockResp.empty => Except.ok ⟨some 0, true, false⟩
    | StockResp.exn => Except.error "yfinance"
  else if asset_type = "crypto" then
    match e.crypto ticker with
    | CryptoResp.ok p => Except.ok ⟨some p, false, false⟩
    | CryptoResp.non200 => Except.ok ⟨none, false, false⟩
    | CryptoResp.badParse => Except.error "parse"
    | CryptoResp.exn => Except.error "requests"
  else Except.ok ⟨none, false, false⟩

/-- `fetch_current_price` (`src/main.py` lines 76-99): the body wrapped in
`try/except`, which logs the exception and returns `None`. -/
def fetch_current_price (e : Env) (asset_type : String) (ticker : Option String) :
    FetchResult :=
  match fetch_current_price_body e asset_type ticker with
  | Except.ok r => r
  | Except.error _ => ⟨none, false, true⟩

/-- `fetch_usd_krw_exchange_rate` (`src/main.py` lines 101-110): the rate and
whether `logging.error` fired.  A 200 response yields the rate; a non-200
response returns the default `1`; a missing `rates.KRW` field or a network
error raises, is caught, logged, and returns `1`. -/
def fetch_usd_krw_exchange_rate (e : Env) : ℚ × Bool :=
  match e.rate with
  | RateResp.ok r => (r, false)
  | RateResp.non200 => (1, false)
  | RateResp.missingField => (1, true)
  | RateResp.exn => (1, true)

/-- Python `round(x*100)/100`, modelling `Series.round(2)`. -/
def round2 (x : ℚ) : ℚ := (round (x * 100) : ℚ) / 100

/-- The resolution step of the loop body (`src/main.py` lines 116-117):
`if pd.isna(row["current_price"]): df.at[index,"current_price"] = fetch_current_price(...)`.
Emits a `resolve` event exactly when the resolver is invoked. -/
def resolveStep (e : Env) (i : Nat) (a : Asset) : Asset × List Event :=
  match a.current_price with
  | none =>
      ({ a with current_price := (fetch_current_price e a.asset_type a.ticker_symbol).price },
       [Event.resolve i])
  | some _ => (a, [])

/-- The conversion step of the loop body (`src/main.py` lines 118-119):
`if row["currency"] == "USD": df.at[index,"current_price"] *= usd_krw`.
NaN times the rate stays NaN. -/
def convertStep (rate : ℚ) (a : Asset) : Asset :=
  if a.currency = "USD" then
    { a with current_price := a.current_price.map (fun p => p * rate) }
  else a

/-- One iteration of the `for index, row in df.iterrows()` loop
(`src/main.py` lines 114-122), with its `try/except`: an injected exception
is caught, the row's price is left as it stood at the raise point, and the
loop continues. -/
def processRow (e : Env) (rate : ℚ) (i : Nat) (a : Asset) : Asset × List Event :=
  match e.rowFail i with
  | RowFail.atResolve => (a, [])
  | RowFail.atConvert => resolveStep e i a
  | RowFail.noFail =>
      let ra := resolveStep e i a
      (convertStep rate ra.1, ra.2)

/-- The whole loop of `calculate_final_values`, carrying the row index. -/
def loopRows (e : Env) (rate : ℚ) : Nat → List Asset → List Asset × List Event
  | _, [] => ([], [])
  | i, a :: rest =>
      let pa := processRow e rate i a
      let pr := loopRows e rate (i + 1) rest
      (pa.1 :: pr.1, pa.2 ++ pr.2)

/-- The vectorized column assignment (`src/main.py` line 123):
`df["final_value"] = (df["current_price"] * df["quantity"] * df["leverage"]).round(2)`.
A NaN price yields a NaN final value. -/
def addFinal (a : Asset) : VAsset :=
  { toAsset := a
    final_value := a.current_price.map (fun p => round2 (p * a.quantity * a.leverage)) }

/-- `calculate_final_values` (`src/main.py` lines 112-125), instrumented with
the event trace: fetch the rate once, run the loop, add the column. -/
def calculate_final_values (e : Env) (df : List Asset) : List VAsset × List Event :=
  let rate := (fetch_usd_krw_exchange_rate e).1
  let lr := loopRows e rate 0 df
  (lr.1.map addFinal, Event.rateFetch :: lr.2)

/-- The valuation result rows of a run. -/
def valRows (e : Env) (df : List Asset) : List VAsset := (calculate_final_values e df).1

/-- The external-call trace of a run. -/
def valEvents (e : Env) (df : List Asset) : List Event := (calculate_final_values e df).2

/-- `total_value = assets_df["final_value"].sum()` (`src/main.py` line 150):
pandas sums with `skipna=True`, so a NaN entry contributes `0`. -/
def total_value (rows : List VAsset) : ℚ :=
  rows.foldl (fun acc v => acc + v.final_value.getD 0) 0

/-- Spec-side working price of an asset (spec §4.3 step 2a): the cached
`current_price` when present, otherwise the resolver's answer. -/
def working_price (e : Env) (a : Asset) : Option ℚ :=
  match a.current_price with
  | none => (fetch_current_price e a.asset_type a.ticker_symbol).price
  | some p => some p

/-- Number of exchange-rate fetch events in a trace. -/
def countRateFetch : List Event → Nat
  | [] => 0
  | Event.rateFetch :: es => countRateFetch es + 1
  | Event.resolve _ :: es => countRateFetch es

/-- Fixture: the feeds of spec Scenario A (stock close 150, rate 1300), no
injected row failure. -/
def envA : Env :=
  { stock := fun _ => StockResp.hist 150
    crypto := fun _ => CryptoResp.ok 60000
    rate := RateResp.ok 1300
    rowFail := fun _ => RowFail.noFail }

/-- Fixture: like `envA` but row 0 raises at the start of its try block. -/
def envAFail0 : Env :=
  { envA with rowFail := fun j => if j = 0 then RowFail.atResolve else RowFail.noFail }

/-- Fixture: every external feed failing (empty stock history, non-200 crypto
response, exchange-rate network error). -/
def envDown : Env :=
  { stock := fun _ => StockResp.empty
    crypto := fun _ => CryptoResp.non200
    rate := RateResp.exn
    rowFail := fun _ => RowFail.noFail }

/-- Fixture: the crypto spot query raises a network exception. -/
def envExn : Env :=
  { envDown with crypto := fun _ => CryptoResp.exn }

/-- Fixture: the Scenario A asset (AAPL, 10 shares, USD, no cached price). -/
def assetAAPL : Asset :=
  { id := 1, asset_type := "stock", plot_type := "stock", ticker_symbol := some "AAPL"
    quantity := 10, current_price := none, currency := "USD", leverage := 1 }

/-- Fixture: an asset with a cached KRW price (never re-resolved). -/
def assetCached : Asset :=
  { id := 2, asset_type := "stock", plot_type := "kstock", ticker_symbol := some "005930.KS"
    quantity := 3, current_price := some 70000, currency := "KRW", leverage := 1 }

/-- Fixture: a crypto asset with no cached price (its query can fail). -/
def assetBTC : Asset :=
  { id := 3, asset_type := "crypto", plot_type := "coin", ticker_symbol := some "BTC"
    quantity := 1/2, current_price := none, currency := "KRW", leverage := 2 }

lemma loopRows_length (e : Env) (rate : ℚ) :
    ∀ (i0 : Nat) (df : List Asset), ((loopRows e rate i0 df).1).length = df.length := by
  intro i0 df
  induction df generalizing i0 with
  | nil => simp [loopRows]
  | cons a rest ih => simp [loopRows, ih]

lemma loopRows_get? (e : Env) (rate : ℚ) (df : List Asset) :
    ∀ (i0 j : Nat), ((loopRows e rate i0 df).1).get? j
      = (df.get? j).map (fun a => (processRow e rate (i0 + j) a).1) := by
  induction df with
  | nil => intro i0 j; simp [loopRows]
  | cons a rest ih =>
      intro i0 j
      cases j with
      | zero => simp [loopRows]
      | succ j =>
          have harith : i0 + 1 + j = i0 + (j + 1) := by omega
          simpa [loopRows, harith] using ih (i0 + 1) j

lemma valRows_length (e : Env) (df : List Asset) : (valRows e df).length = df.length := by
  simp [valRows, calculate_final_values, loopRows_length]

lemma valRows_get? (e : Env) (df : List Asset) (i : Nat) :
    (valRows e df).get? i
      = (df.get? i).map
          (fun a => addFinal (processRow e (fetch_usd_krw_exchange_rate e).1 i a).1) := by
  have h := loopRows_get? e (fetch_usd_krw_exchange_rate e).1 df 0 i
  simp only [valRows, calculate_final_values]
  rw [List.get?_map, h]
  cases df.get? i <;> simp

lemma resolve_mem_processRow {e : Env} {rate : ℚ} {i k : Nat} {a : Asset}
    (h : Event.resolve k ∈ (processRow e rate i a).2) :
    k = i ∧ a.current_price = none := by
  cases hf : e.rowFail i <;> cases hp : a.current_price <;>
    simp_all [processRow, resolveStep, hp]

lemma rateFetch_not_mem_processRow (e : Env) (rate : ℚ) (i : Nat) (a : Asset) :
    Event.rateFetch ∉ (processRow e rate i a).2 := by
  cases hf : e.rowFail i <;> cases hp : a.current_price <;>
    simp_all [processRow, resolveStep, hp]

lemma resolve_mem_loopRows (e : Env) (rate : ℚ) (df : List Asset) :
    ∀ (i0 k : Nat), Event.resolve k ∈ (loopRows e rate i0 df).2 →
      ∃ j a, df.get? j = some a ∧ k = i0 + j ∧ a.current_price = none := by
  induction df with
  | nil => intro i0 k h; simp [loopRows] at h
  | cons a rest ih =>
      intro i0 k h
      simp only [loopRows, List.mem_append] at h
      rcases h with h | h
      · obtain ⟨hk, hp⟩ := resolve_mem_processRow h
        exact ⟨0, a, rfl, by omega, hp⟩
      · obtain ⟨j, b, hb, hk, hp⟩ := ih (i0 + 1) k h
        exact ⟨j + 1, b, by simpa using hb, by omega, hp⟩

lemma countRateFetch_append (l₁ l₂ : List Event) :
    countRateFetch (l₁ ++ l₂) = countRateFetch l₁ + countRateFetch l₂ := by
  induction l₁ with
  | nil => simp [countRateFetch]
  | cons ev t ih => cases ev <;> simp [countRateFetch, ih] <;> omega

lemma countRateFetch_processRow (e : Env) (rate : ℚ) (i : Nat) (a : Asset) :
    countRateFetch (processRow e rate i a).2 = 0 := by
  cases hf : e.rowFail i <;> cases hp : a.current_price <;>
    simp_all [processRow, resolveStep, countRateFetch, hp]

lemma countRateFetch_loopRows (e : Env) (rate : ℚ) (df : List Asset) :
    ∀ i0 : Nat, countRateFetch (loopRows e rate i0 df).2 = 0 := by
  induction df with
  | nil => intro i0; simp [loopRows, countRateFetch]
  | cons a rest ih =>
      intro i0
      simp [loopRows, countRateFetch_append, countRateFetch_processRow, ih]

lemma fetch_current_price_congr (e e' : Env) (hs : e.stock = e'.stock)
    (hc : e.crypto = e'.crypto) (t : String) (s : Option String) :
    fetch_current_price e t s = fetch_current_price e' t s := by
  simp [fetch_current_price, fetch_current_price_body, hs, hc]

lemma processRow_congr (e e' : Env) (rate : ℚ) (i : Nat) (a : Asset)
    (hs : e.stock = e'.stock) (hc : e.crypto = e'.crypto)
    (hf : e.rowFail i = e'.rowFail i) :
    processRow e rate i a = processRow e' rate i a := by
  have hfp : ∀ t s, fetch_current_price e t s = fetch_current_price e' t s :=
    fetch_current_price_congr e e' hs hc
  unfold processRow resolveStep
  rw [hf]
  cases e'.rowFail i <;> cases a.current_price <;> simp [hfp]

lemma processRow_fields (e : Env) (rate : ℚ) (i : Nat) (a : Asset) :
    (processRow e rate i a).1.id = a.id ∧
    (processRow e rate i a).1.asset_type = a.asset_type ∧
    (processRow e rate i a).1.plot_type = a.plot_type ∧
    (processRow e rate i a).1.ticker_symbol = a.ticker_symbol ∧
    (processRow e rate i a).1.quantity = a.quantity ∧
    (processRow e rate i a).1.currency = a.currency ∧
    (processRow e rate i a).1.leverage = a.leverage := by
  cases hf : e.rowFail i <;> cases hp : a.current_price <;>
    by_cases hc : a.currency = "USD" <;>
    simp_all [processRow, resolveStep, convertStep, hp, hc]

lemma processRow_noFail_price (e : Env) (rate : ℚ) (i : Nat) (a : Asset)
    (h : e.rowFail i = RowFail.noFail) :
    (processRow e rate i a).1.current_price
      = if a.currency = "USD" then (working_price e a).map (fun p => p * rate)
        else working_price e a := by
  cases hp : a.current_price <;> by_cases hc : a.currency = "USD" <;>
    simp_all [processRow, resolveStep, convertStep, working_price, hp, hc]

lemma foldl_add_getD (l : List VAsset) :
    ∀ c : ℚ, l.foldl (fun acc v => acc + v.final_value.getD 0) c
      = c + (l.map (fun v => v.final_value.getD 0)).sum := by
  induction l with
  | nil => intro c; simp
  | cons v t ih => intro c; simp [ih, add_assoc]

/-- C1: for every asset processed by the valuation run without an injected
unexpected exception, the output's final value equals
round2(working price * quantity * leverage), where the working price is the
cached-or-resolved current price, multiplied by the fetched USD to KRW rate
exactly when the asset's currency is "USD" and left unmultiplied otherwise. -/
theorem final_value_formula (e : Env) (df : List Asset) (i : Nat) (a : Asset)
    (ha : df.get? i = some a) (hnf : e.rowFail i = RowFail.noFail) :
    ∃ v, (valRows e df).get? i = some v ∧
      v.final_value
        = (if a.currency = "USD"
             then (working_price e a).map (fun p => p * (fetch_usd_krw_exchange_rate e).1)
             else working_price e a).map
            (fun p => round2 (p * a.quantity * a.leverage)) := by
  refine ⟨addFinal (processRow e (fetch_usd_krw_exchange_rate e).1 i a).1, ?_, ?_⟩
  · rw [valRows_get?, ha]; rfl
  · obtain ⟨-, -, -, -, hq, hcur, hl⟩ :=
      processRow_fields e (fetch_usd_krw_exchange_rate e).1 i a
    have hp := processRow_noFail_price e (fetch_usd_krw_exchange_rate e).1 i a hnf
    simp [addFinal, hp, hq, hl]

/-- Witness for C1 at spec Scenario A: AAPL with resolver price 150 and rate
1300 gets final value 150 * 1300 * 10 * 1 = 1950000.00. -/
theorem final_value_formula_witness :
    ∃ v, (valRows envA [assetAAPL]).get? 0 = some v ∧ v.final_value = some 1950000 := by
  obtain ⟨v, hv, hfv⟩ := final_value_formula envA [assetAAPL] 0 assetAAPL rfl rfl
  refine ⟨v, hv, ?_⟩
  rw [hfv]
  norm_num [envA, assetAAPL, working_price, fetch_current_price,
    fetch_current_price_body, fetch_usd_krw_exchange_rate, round2]

/-- C2: the reported portfolio total is exactly the sum of the final values of
all assets in the valuation result (a missing / NaN final value is skipped by
the pandas sum, contributing 0). -/
theorem total_is_sum_of_final_values (e : Env) (df : List Asset) :
    total_value (valRows e df)
      = ((valRows e df).map (fun v => v.final_value.getD 0)).sum := by
  simpa [total_value] using foldl_add_getD (valRows e df) 0

/-- C3: valuation always completes with one output row per input asset, and an
asset whose price could not be resolved (resolver returned ABSENT or the zero
fallback) still appears in the output with a zero-derived final value: the
final value is NaN-or-zero and contributes 0 to the total. -/
theorem valuation_total_with_zero_fallback (e : Env) (df : List Asset) (i : Nat) (a : Asset)
    (ha : df.get? i = some a) (hmiss : a.current_price = none)
    (habs : (fetch_current_price e a.asset_type a.ticker_symbol).price = none ∨
            (fetch_current_price e a.asset_type a.ticker_symbol).price = some 0) :
    (valRows e df).length = df.length ∧
    ∃ v, (valRows e df).get? i = some v ∧
      (v.final_value = none ∨ v.final_value = some 0) ∧ v.final_value.getD 0 = 0 := by
  refine ⟨valRows_length e df,
    addFinal (processRow e (fetch_usd_krw_exchange_rate e).1 i a).1, ?_, ?_⟩
  · rw [valRows_get?, ha]; rfl
  · cases hf : e.rowFail i <;> rcases habs with h | h <;>
      simp [addFinal, processRow, resolveStep, convertStep, hf, hmiss, h, round2]

/-- Witness for C3: a crypto asset whose spot query returns non-200 still
appears in the output, with a NaN-or-zero final value contributing 0. -/
theorem valuation_total_with_zero_fallback_witness :
    (valRows envDown [assetBTC]).length = [assetBTC].length ∧
    ∃ v, (valRows envDown [assetBTC]).get? 0 = some v ∧
      (v.final_value = none ∨ v.final_value = some 0) ∧ v.final_value.getD 0 = 0 :=
  valuation_total_with_zero_fallback envDown [assetBTC] 0 assetBTC rfl rfl (Or.inl rfl)

/-- C4: an asset whose current price is already cached (set and not NaN) never
triggers a Price Resolver invocation: no resolve event for its row is in the
run's trace. -/
theorem cached_price_never_resolved (e : Env) (df : List Asset) (i : Nat) (a : Asset) (p : ℚ)
    (ha : df.get? i = some a) (hp : a.current_price = some p) :
    Event.resolve i ∉ valEvents e df := by
  intro hmem
  simp only [valEvents, calculate_final_values, List.mem_cons] at hmem
  rcases hmem with h | h
  · exact Event.noConfusion h
  · obtain ⟨j, b, hb, hk, hnone⟩ :=
      resolve_mem_loopRows e (fetch_usd_krw_exchange_rate e).1 df 0 i h
    have hji : j = i := by omega
    subst hji
    rw [ha] at hb
    cases hb
    rw [hp] at hnone
    cases hnone

/-- Witness for C4: the cached asset in row 0 is never re-resolved. -/
theorem cached_price_never_resolved_witness :
    Event.resolve 0 ∉ valEvents envA [assetCached] :=
  cached_price_never_resolved envA [assetCached] 0 assetCached 70000 rfl rfl

/-- C5: a per-asset exception during resolution or conversion is isolated:
if two worlds agree on every feed and on every row's failure behaviour except
row i, then every other row of the valuation result is identical, every row is
still present (the run does not abort), and when the exception fires at the
start of row i's try block, that asset's price is left exactly as it was. -/
theorem per_asset_failure_isolated (e e' : Env) (df : List Asset) (i : Nat)
    (hs : e.stock = e'.stock) (hc : e.crypto = e'.crypto) (hr : e.rate = e'.rate)
    (hf : ∀ j, j ≠ i → e.rowFail j = e'.rowFail j) :
    (∀ j, j ≠ i → (valRows e df).get? j = (valRows e' df).get? j) ∧
    (valRows e' df).length = df.length ∧
    (e'.rowFail i = RowFail.atResolve →
      ∀ a, df.get? i = some a →
        ∃ v, (valRows e' df).get? i = some v ∧ v.current_price = a.current_price) := by
  have hrate : fetch_usd_krw_exchange_rate e = fetch_usd_krw_exchange_rate e' := by
    simp [fetch_usd_krw_exchange_rate, hr]
  refine ⟨?_, valRows_length e' df, ?_⟩
  · intro j hj
    rw [valRows_get?, valRows_get?]
    cases hdf : df.get? j with
    | none => simp
    | some a =>
        simp only [Option.map_some']
        rw [hrate, processRow_congr e e' (fetch_usd_krw_exchange_rate e').1 j a hs hc (hf j hj)]
  · intro hfail a ha
    refine ⟨addFinal (processRow e' (fetch_usd_krw_exchange_rate e').1 i a).1, ?_, ?_⟩
    · rw [valRows_get?, ha]; rfl
    · simp [processRow, hfail, addFinal]

/-- Witness for C5: injecting an exception into row 0 leaves row 1 of a
two-asset portfolio untouched, keeps both rows present, and leaves row 0's
price as stored. -/
theorem per_asset_failure_isolated_witness :
    (∀ j, j ≠ 0 → (valRows envA [assetAAPL, assetCached]).get? j
        = (valRows envAFail0 [assetAAPL, assetCached]).get? j) ∧
    (valRows envAFail0 [assetAAPL, assetCached]).length = [assetAAPL, assetCached].length ∧
    (envAFail0.rowFail 0 = RowFail.atResolve →
      ∀ a, [assetAAPL, assetCached].get? 0 = some a →
        ∃ v, (valRows envAFail0 [assetAAPL, assetCached]).get? 0 = some v ∧
          v.current_price = a.current_price) :=
  per_asset_failure_isolated envA envAFail0 [assetAAPL, assetCached] 0 rfl rfl rfl
    (fun j hj => by simp [envA, envAFail0, hj])

/-- C6: on every failure mode of the exchange-rate feed (non-200 response,
missing rate field, network error) the provider returns the rate 1, the run
still completes with one row per asset, each normally-processed row keeps its
unconverted working price (conversion is a no-op), and the total is still the
sum of the final values. -/
theorem rate_failure_defaults_to_one (e : Env)
    (h : e.rate = RateResp.non200 ∨ e.rate = RateResp.missingField ∨ e.rate = RateResp.exn) :
    (fetch_usd_krw_exchange_rate e).1 = 1 ∧
    ∀ df : List Asset, (valRows e df).length = df.length ∧
      total_value (valRows e df)
        = ((valRows e df).map (fun v => v.final_value.getD 0)).sum ∧
      ∀ i a, df.get? i = some a → e.rowFail i = RowFail.noFail →
        ∃ v, (valRows e df).get? i = some v ∧ v.current_price = working_price e a := by
  have h1 : (fetch_usd_krw_exchange_rate e).1 = 1 := by
    rcases h with h | h | h <;> simp [fetch_usd_krw_exchange_rate, h]
  refine ⟨h1, fun df => ⟨valRows_length e df,
    by simpa [total_value] using foldl_add_getD (valRows e df) 0, fun i a ha hnf => ?_⟩⟩
  refine ⟨addFinal (processRow e (fetch_usd_krw_exchange_rate e).1 i a).1, ?_, ?_⟩
  · rw [valRows_get?, ha]; rfl
  · have hp := processRow_noFail_price e 1 i a hnf
    simp only [addFinal]
    rw [h1, hp]
    split <;> simp

/-- Witness for C6: with the rate feed raising a network error, the provider
returns 1 and the pipeline behaves as stated. -/
theorem rate_failure_defaults_to_one_witness :
    (fetch_usd_krw_exchange_rate envDown).1 = 1 ∧
    ∀ df : List Asset, (valRows envDown df).length = df.length ∧
      total_value (valRows envDown df)
        = ((valRows envDown df).map (fun v => v.final_value.getD 0)).sum ∧
      ∀ i a, df.get? i = some a → envDown.rowFail i = RowFail.noFail →
        ∃ v, (valRows envDown df).get? i = some v ∧
          v.current_price = working_price envDown a :=
  rate_failure_defaults_to_one envDown (Or.inr (Or.inr rfl))

/-- C7: a stock whose market-data query returns an empty history resolves to
the fallback price 0 with a warning logged, and such an asset, when valued
normally with no cached price, gets final value 0.00 while the run keeps one
row per asset. -/
theorem stock_no_history_zero_fallback (e : Env) (t : Option String)
    (hstock : e.stock t = StockResp.empty) :
    (fetch_current_price e "stock" t).price = some 0 ∧
    (fetch_current_price e "stock" t).warned = true ∧
    ∀ df i a, df.get? i = some a → a.asset_type = "stock" → a.ticker_symbol = t →
      a.current_price = none → e.rowFail i = RowFail.noFail →
      (valRows e df).length = df.length ∧
      ∃ v, (valRows e df).get? i = some v ∧ v.final_value = some 0 := by
  have hfp : fetch_current_price e "stock" t = ⟨some 0, true, false⟩ := by
    simp [fetch_current_price, fetch_current_price_body, hstock]
  refine ⟨by rw [hfp], by rw [hfp], fun df i a ha hty htick hmiss hnf => ?_⟩
  refine ⟨valRows_length e df,
    addFinal (processRow e (fetch_usd_krw_exchange_rate e).1 i a).1, ?_, ?_⟩
  · rw [valRows_get?, ha]; rfl
  · have hres : (fetch_current_price e a.asset_type a.ticker_symbol).price = some 0 := by
      rw [hty, htick, hfp]
    simp [addFinal, processRow, resolveStep, convertStep, hnf, hmiss, hres, round2]

/-- Witness for C7: a delisted stock under the all-feeds-down world resolves
to price 0 with a warning, and is valued at 0.00. -/
theorem stock_no_history_zero_fallback_witness :
    (fetch_current_price envDown "stock" (some "GONE")).price = some 0 ∧
    (fetch_current_price envDown "stock" (some "GONE")).warned = true ∧
    ∀ df i a, df.get? i = some a → a.asset_type = "stock" →
      a.ticker_symbol = some "GONE" →
      a.current_price = none → envDown.rowFail i = RowFail.noFail →
      (valRows envDown df).length = df.length ∧
      ∃ v, (valRows envDown df).get? i = some v ∧ v.final_value = some 0 :=
  stock_no_history_zero_fallback envDown (some "GONE") rfl

/-- C8: the Price Resolver returns ABSENT rather than throwing: a crypto spot
query with a non-success response or a parse failure yields price none, any
asset type other than stock and crypto yields price none, and whenever the
resolver body raises, the caught result is price none with an error logged
(no exception escapes to the caller). -/
theorem resolver_absent_no_exception (e : Env) (ty : String) (t : Option String) :
    (e.crypto t = CryptoResp.non200 ∨ e.crypto t = CryptoResp.badParse →
      (fetch_current_price e "crypto" t).price = none) ∧
    (ty ≠ "stock" → ty ≠ "crypto" → (fetch_current_price e ty t).price = none) ∧
    (∀ err, fetch_current_price_body e ty t = Except.error err →
      fetch_current_price e ty t = ⟨none, false, true⟩) := by
  refine ⟨?_, ?_, ?_⟩
  · rintro (h | h) <;> simp [fetch_current_price, fetch_current_price_body, h]
  · intro h1 h2
    simp [fetch_current_price, fetch_current_price_body, h1, h2]
  · intro err herr
    simp [fetch_current_price, herr]

/-- Witness for C8: a non-200 crypto response gives ABSENT, a cash asset gives
ABSENT, and a raised network error is swallowed into an ABSENT-with-log
result. -/
theorem resolver_absent_no_exception_witness :
    (fetch_current_price envDown "crypto" (some "BTC")).price = none ∧
    (fetch_current_price envDown "cash" none).price = none ∧
    fetch_current_price envExn "crypto" (some "BTC") = ⟨none, false, true⟩ :=
  ⟨(resolver_absent_no_exception envDown "cash" (some "BTC")).1 (Or.inl rfl),
   (resolver_absent_no_exception envDown "cash" none).2.1 (by decide) (by decide),
   (resolver_absent_no_exception envExn "crypto" (some "BTC")).2.2 "requests" rfl⟩

/-- C9: every valuation run fetches the exchange rate exactly once, whatever
the number of assets, and each USD asset processed normally has its working
price multiplied by exactly that single fetched rate. -/
theorem rate_fetched_once (e : Env) (df : List Asset) :
    countRateFetch (valEvents e df) = 1 ∧
    ∀ i a p, df.get? i = some a → e.rowFail i = RowFail.noFail → a.currency = "USD" →
      working_price e a = some p →
      ∃ v, (valRows e df).get? i = some v ∧
        v.current_price = some (p * (fetch_usd_krw_exchange_rate e).1) := by
  constructor
  · simp [valEvents, calculate_final_values, countRateFetch, countRateFetch_loopRows]
  · intro i a p ha hnf hu hw
    refine ⟨addFinal (processRow e (fetch_usd_krw_exchange_rate e).1 i a).1, ?_, ?_⟩
    · rw [valRows_get?, ha]; rfl
    · have hp := processRow_noFail_price e (fetch_usd_krw_exchange_rate e).1 i a hnf
      simp [addFinal, hp, hu, hw]

/-- Witness for C9: the one-asset Scenario A run fires exactly one rate fetch
and converts AAPL's resolved price 150 with that rate. -/
theorem rate_fetched_once_witness :
    countRateFetch (valEvents envA [assetAAPL]) = 1 ∧
    ∃ v, (valRows envA [assetAAPL]).get? 0 = some v ∧
      v.current_price = some (150 * (fetch_usd_krw_exchange_rate envA).1) :=
  ⟨(rate_fetched_once envA [assetAAPL]).1,
   (rate_fetched_once envA [assetAAPL]).2 0 assetAAPL 150 rfl rfl rfl (by decide)⟩

/-- C10: valuation only rewrites current_price and adds final_value: id,
asset_type, plot_type, ticker_symbol, quantity, currency and leverage of every
row are returned unchanged; in particular a converted USD asset still carries
currency "USD". -/
theorem valuation_preserves_fields (e : Env) (df : List Asset) (i : Nat) (a : Asset)
    (ha : df.get? i = some a) :
    ∃ v, (valRows e df).get? i = some v ∧ v.id = a.id ∧ v.asset_type = a.asset_type ∧
      v.plot_type = a.plot_type ∧ v.ticker_symbol = a.ticker_symbol ∧
      v.quantity = a.quantity ∧ v.currency = a.currency ∧ v.leverage = a.leverage := by
  refine ⟨addFinal (processRow e (fetch_usd_krw_exchange_rate e).1 i a).1, ?_, ?_⟩
  · rw [valRows_get?, ha]; rfl
  · obtain ⟨h1, h2, h3, h4, h5, h6, h7⟩ :=
      processRow_fields e (fetch_usd_krw_exchange_rate e).1 i a
    simp [addFinal, h1, h2, h3, h4, h5, h6, h7]

/-- Witness for C10: the converted USD asset of Scenario A keeps all its
stored fields, including currency "USD". -/
theorem valuation_preserves_fields_witness :
    ∃ v, (valRows envA [assetAAPL]).get? 0 = some v ∧ v.id = assetAAPL.id ∧
      v.asset_type = assetAAPL.asset_type ∧ v.plot_type = assetAAPL.plot_type ∧
      v.ticker_symbol = assetAAPL.ticker_symbol ∧ v.quantity = assetAAPL.quantity ∧
      v.currency = assetAAPL.currency ∧ v.leverage = assetAAPL.leverage :=
  valuation_preserves_fields envA [assetAAPL] 0 assetAAPL rfl

end AssetPlot
